import Mathlib

/-!
Shallow embedding of the B-tree implementation in `btree/btree.go`
(the version exposing `Find : (V, bool)`, `Insert`, `IntegrityCheck`)
together with the integrity checker.

Modelling conventions:
* Go `int` keys and values are modelled as `Int` (`K = int`, `V = int`,
  as instantiated by the repository's tests `btree.New[int, int]`).
* A Go `map[K]V` is modelled as an association list with the usual
  map-assignment (overwrite-in-place) and lookup operations.
* Pointer identity of `innerNode` values (needed for the `parent`
  back-references, which in Go are `*innerNode`) is modelled by giving
  every inner node a numeric id; a `parent` field holds `Option Nat`.
* A Go panic (failed `assert`, out-of-range slice index, `slices.Min`
  of an empty slice, the literal `panic("dupa")`) is modelled by
  returning `none` from an `Option`-valued function; `some` is a
  normal return.
-/

namespace BtreeGo

/-- One stored pair of a leaf's `values` map: key and value. -/
abbrev Pair := Int × Int

/-- The node model: `leafNode` carries its `values` map and a `parent`
back-reference; `innerNode` carries an identity (modelling its Go
pointer), its `children`, its separator `keys`, and its `parent`. -/
inductive Node where
  | leaf (values : List Pair) (parent : Option Nat)
  | inner (id : Nat) (children : List Node) (keys : List Int) (parent : Option Nat)
deriving Repr

/-- The `leafNode` struct viewed on its own (used by `splitAroundMedian`
and `newInnerNodeForSplitLeafs`, which operate on leaves only). -/
structure LeafNode where
  values : List Pair
  parent : Option Nat
deriving Repr, DecidableEq

/-- The `Btree` struct: order and root. -/
structure Btree where
  order : Int
  root : Node
deriving Repr

/-- Go map lookup `m[k]` (second result of the two-valued form). -/
def mapLookup (values : List Pair) (k : Int) : Option Int :=
  (values.find? (fun p => p.1 == k)).map (fun p => p.2)

/-- Go map assignment `m[k] = v`: overwrite the entry if the key is
present, otherwise add a new entry. -/
def mapAssign (values : List Pair) (k v : Int) : List Pair :=
  if values.any (fun p => p.1 == k) then
    values.map (fun p => if p.1 == k then (k, v) else p)
  else
    values ++ [(k, v)]

/-- The loop of `innerNode.findLeafNodeByKey`:
`foundNodeIndex := len(n.keys)`, then for each index `i` and separator,
`if separator > seekedKey { foundNodeIndex = i }` — no break, so the
final value is the LAST index whose separator exceeds the key. -/
def foundNodeIndexLoop (seekedKey : Int) : List Int → Nat → Nat → Nat
  | [], _, acc => acc
  | k :: rest, i, acc =>
      foundNodeIndexLoop seekedKey rest (i + 1) (if k > seekedKey then i else acc)

/-- The `foundNodeIndex` computed by `innerNode.findLeafNodeByKey`. -/
def foundNodeIndex (keys : List Int) (seekedKey : Int) : Nat :=
  foundNodeIndexLoop seekedKey keys 0 keys.length

/-- The node interface method `findLeafNodeByKey`.  A leaf returns
itself (its `values` and `parent`).  An inner node computes
`foundNodeIndex`, asserts it is inside `children`, and recurses into
that child.  `none` models a panic of the assert. -/
def Node.findLeafNodeByKey : Node → Int → Option (List Pair × Option Nat)
  | .leaf values parent, _ => some (values, parent)
  | .inner _ children keys _, seekedKey =>
      let idx := foundNodeIndex keys seekedKey
      if h : idx < children.length then
        (children.get ⟨idx, h⟩).findLeafNodeByKey seekedKey
      else
        none
termination_by n _ => sizeOf n
decreasing_by
  have := List.sizeOf_lt_of_mem
    (children.get_mem (foundNodeIndex keys seekedKey) h)
  simp only [Node.inner.sizeOf_spec]
  omega

/-- The constructor `New(order)`: the root is `newLeafNode()`, an empty
leaf with nil parent. -/
def Btree.New (order : Int) : Btree :=
  { order := order, root := .leaf [] none }

/-- The method `Find(key)`: descend to the leaf, then the two-valued
map lookup; `(zero, false)` when absent.  `none` models a panic during
descent (never reached from a leaf root). -/
def Btree.Find (b : Btree) (key : Int) : Option (Int × Bool) :=
  match b.root.findLeafNodeByKey key with
  | some (values, _) =>
      match mapLookup values key with
      | some v => some (v, true)
      | none => some (0, false)
  | none => none

/-- The method `leafNode.isFull(order)`: asserts
`len(n.values) < order` (panic `none` if violated) and returns
`len(n.values) == order - 1`. -/
def leafIsFull (order : Int) (values : List Pair) : Option Bool :=
  if (values.length : Int) < order then
    some ((values.length : Int) == order - 1)
  else
    none

/-- The method `leafNode.medianKeyForChildrenAndKey(key)`:
`keys := make([]K, 0, len(n.values)+1)` (length 0), append every map
key (length now `len(values)`), then write `keys[len(n.values)] = key`
— an index equal to the slice's length, hence out of range and `none`
(panic).  The sort and middle-element read that follow in the source
are therefore dead code; they are translated inside the guard. -/
def medianKeyForChildrenAndKey (values : List Pair) (key : Int) : Option Int :=
  let keys := values.map (fun p => p.1)
  if values.length < keys.length then
    let written := keys.set values.length key
    let sorted := written.mergeSort (fun a b => a ≤ b)
    sorted[sorted.length / 2]?
  else
    none

/-- The method `leafNode.splitAroundMedian(median)`: two fresh leaves
(`newLeafNode()`, nil parents); every pair with key `< median` goes
left, every other pair (key `>= median`) goes right. -/
def splitAroundMedian (values : List Pair) (median : Int) : LeafNode × LeafNode :=
  let parts := values.partition (fun p => p.1 < median)
  (⟨parts.1, none⟩, ⟨parts.2, none⟩)

/-- The function `newInnerNodeForSplitLeafs(leftLeaf, rightLeaf, median)`:
build an inner node with children `[leftLeaf, rightLeaf]` and keys
`[median]`; assert each leaf's parent is nil (panic `none` otherwise)
and set it to the new node.  `freshId` models the address of the newly
allocated inner node. -/
def newInnerNodeForSplitLeafs (freshId : Nat) (leftLeaf rightLeaf : LeafNode)
    (median : Int) : Option Node :=
  if leftLeaf.parent = none then
    if rightLeaf.parent = none then
      some (.inner freshId
        [.leaf leftLeaf.values (some freshId), .leaf rightLeaf.values (some freshId)]
        [median] none)
    else none
  else none

/-- The method `replaceRoot(n)`: `b.root = n`. -/
def Btree.replaceRoot (b : Btree) (n : Node) : Btree :=
  { b with root := n }

/-- Largest inner-node id occurring in a tree; `maxNodeId + 1` models a
freshly allocated pointer in `Insert`. -/
def Node.maxNodeId : Node → Nat
  | .leaf _ _ => 0
  | .inner i children _ _ =>
      children.attach.foldl (fun acc c => max acc c.1.maxNodeId) i
termination_by n => sizeOf n
decreasing_by
  have := List.sizeOf_lt_of_mem c.2
  simp only [Node.inner.sizeOf_spec]
  omega

/-- The method `Insert(key, value)`: descend to the leaf; if it is not
full, perform the map assignment; then — the source has no early
return — compute the median (which always panics, see
`medianKeyForChildrenAndKey`), split, build the new inner node, and
either replace the root (leaf was root) or hit `panic("dupa")`. -/
def Btree.Insert (b : Btree) (key value : Int) : Option Btree :=
  match b.root.findLeafNodeByKey key with
  | none => none
  | some (values, parent) =>
    match leafIsFull b.order values with
    | none => none
    | some full =>
      let values1 := if full then values else mapAssign values key value
      match medianKeyForChildrenAndKey values1 key with
      | none => none
      | some median =>
        let parts := splitAroundMedian values1 median
        match newInnerNodeForSplitLeafs (b.root.maxNodeId + 1) parts.1 parts.2 median with
        | none => none
        | some innerN =>
          if parent = none then
            some (b.replaceRoot innerN)
          else
            none

/-! ### The integrity checker (`btree/integrity_check.go`) -/

/-- Result of a checking function: `none` is a Go panic, `some none`
is a nil error, `some (some msg)` is a non-nil error. -/
abbrev CheckResult := Option (Option String)

/-- The node interface method `getParent()` (an inner-node pointer,
modelled by the node id). -/
def Node.getParent : Node → Option Nat
  | .leaf _ parent => parent
  | .inner _ _ _ parent => parent

/-- The helper `collectLeafKeysPerNode`, reformulated: the Go code
stores, keyed by node identity, the list of all leaf keys in the
subtree of every node; `keysUnder n` is exactly the list stored for
`n` (leaf: its map's keys; inner: concatenation over children). -/
def Node.keysUnder : Node → List Int
  | .leaf values _ => values.map (fun p => p.1)
  | .inner _ children _ _ =>
      (children.attach.map (fun c => c.1.keysUnder)).flatten
termination_by n => sizeOf n
decreasing_by
  have := List.sizeOf_lt_of_mem c.2
  simp only [Node.inner.sizeOf_spec]
  omega

/-- Go `slices.Min`: panics (`none`) on an empty slice. -/
def slicesMin : List Int → Option Int
  | [] => none
  | k :: rest => some (rest.foldl min k)

/-- Go `slices.Max`: panics (`none`) on an empty slice. -/
def slicesMax : List Int → Option Int
  | [] => none
  | k :: rest => some (rest.foldl max k)

/-- Go `slices.IsSorted`: non-decreasing (adjacent equal elements are
allowed). -/
def slicesIsSorted : List Int → Bool
  | [] => true
  | [_] => true
  | a :: b :: rest => a ≤ b && slicesIsSorted (b :: rest)

/-- The check `integrityCheckLeafSize`: a leaf must hold at most
`order` values. -/
def integrityCheckLeafSize (order : Int) (_level : Nat) : Node → CheckResult
  | .leaf values _ =>
      if (values.length : Int) > order then
        some (some "size of the leaf node is larger than the order")
      else
        some none
  | .inner _ _ _ _ => some none

/-- The check `integrityCheckKeyAndChildrenLen`: an inner node must
satisfy `len(children) == len(keys)+1` and `slices.IsSorted(keys)`
(non-strict). -/
def integrityCheckKeyAndChildrenLen (_level : Nat) : Node → CheckResult
  | .leaf _ _ => some none
  | .inner _ children keys _ =>
      if children.length ≠ keys.length + 1 then
        some (some "len children != len keys + 1")
      else if !slicesIsSorted keys then
        some (some "keys are not sorted")
      else
        some none

/-- The check `integrityCheckAllButRootHaveParent`. -/
def integrityCheckAllButRootHaveParent (level : Nat) (n : Node) : CheckResult :=
  if level = 0 then
    if n.getParent ≠ none then
      some (some "expected root to have no parent")
    else
      some none
  else
    if n.getParent = none then
      some (some "expected non-root to have parent")
    else
      some none

/-- The loop of `integrityCheckParentPointsCorrectly` over an inner
node's children. -/
def checkChildrenParents (selfId : Nat) : List Node → Option String
  | [] => none
  | c :: rest =>
      if c.getParent ≠ some selfId then
        some "parent of child node does not point to correct parent"
      else
        checkChildrenParents selfId rest

/-- The check `integrityCheckParentPointsCorrectly`: only inner nodes
are inspected; each child's parent pointer must be this node. -/
def integrityCheckParentPointsCorrectly (_level : Nat) : Node → CheckResult
  | .leaf _ _ => some none
  | .inner i children _ _ => some (checkChildrenParents i children)

/-- The loop of the closure `checkKeysPerNode` over the children of an
inner node with keys `ks`, starting at child index `idx`.  For every
child: look up its collected leaf keys, take `slices.Min` and
`slices.Max` (panic on an empty collection), then compare against the
adjacent separators unless the child is leftmost/rightmost.  A Go
out-of-range read of `keys[i-1]` or `keys[i]` is also a panic. -/
def checkKeysLoop (ks : List Int) : Nat → List Node → CheckResult
  | _, [] => some none
  | idx, c :: rest =>
      let keysForChild := c.keysUnder
      match slicesMin keysForChild with
      | none => none
      | some minKey =>
        match slicesMax keysForChild with
        | none => none
        | some maxKey =>
          let leftmost := idx = 0
          let rightmost := idx = ks.length
          let stepMin : CheckResult :=
            if leftmost then some none
            else
              match ks[idx - 1]? with
              | none => none
              | some kPrev => if ¬ (minKey ≥ kPrev) then some (some "bad min key") else some none
          match stepMin with
          | none => none
          | some (some e) => some (some e)
          | some none =>
            let stepMax : CheckResult :=
              if rightmost then some none
              else
                match ks[idx]? with
                | none => none
                | some kNext => if ¬ (maxKey < kNext) then some (some "mad max key") else some none
            match stepMax with
            | none => none
            | some (some e) => some (some e)
            | some none => checkKeysLoop ks (idx + 1) rest

/-- The closure `checkKeysPerNode` inside `IntegrityCheck`. -/
def checkKeysPerNode (_level : Nat) : Node → CheckResult
  | .leaf _ _ => some none
  | .inner _ children keys _ => checkKeysLoop keys 0 children

/-- The function `chainIntegrityCheck` applied to the five checks, in
the order of the source: leaf size, key/children length, parent
existence, parent correctness, per-child key ranges.  The first
non-nil error (or panic) wins. -/
def chainedCheck (order : Int) (level : Nat) (n : Node) : CheckResult :=
  match integrityCheckLeafSize order level n with
  | none => none
  | some (some e) => some (some e)
  | some none =>
    match integrityCheckKeyAndChildrenLen level n with
    | none => none
    | some (some e) => some (some e)
    | some none =>
      match integrityCheckAllButRootHaveParent level n with
      | none => none
      | some (some e) => some (some e)
      | some none =>
        match integrityCheckParentPointsCorrectly level n with
        | none => none
        | some (some e) => some (some e)
        | some none => checkKeysPerNode level n

mutual

/-- The node interface method `runRecursiveUntilError(level, fun)`:
pre-order traversal, short-circuiting on the first non-nil error (a
leaf just applies the function; an inner node applies it and then
recurses over its children in order). -/
def Node.runRecursiveUntilError (f : Nat → Node → CheckResult) :
    Nat → Node → CheckResult
  | level, .leaf values parent => f level (.leaf values parent)
  | level, .inner i children keys parent =>
      match f level (.inner i children keys parent) with
      | none => none
      | some (some e) => some (some e)
      | some none => runRecursiveUntilErrorList f (level + 1) children

/-- The child loop of `innerNode.runRecursiveUntilError`. -/
def runRecursiveUntilErrorList (f : Nat → Node → CheckResult) :
    Nat → List Node → CheckResult
  | _, [] => some none
  | level, c :: rest =>
      match Node.runRecursiveUntilError f level c with
      | none => none
      | some (some e) => some (some e)
      | some none => runRecursiveUntilErrorList f level rest

end

/-- The method `IntegrityCheck()`: run the chained checks over the
whole tree starting from the root at level 0. -/
def Btree.IntegrityCheck (b : Btree) : CheckResult :=
  b.root.runRecursiveUntilError (chainedCheck b.order) 0

/-! ### Shared helper lemmas -/

/-- The slice built by `medianKeyForChildrenAndKey` has length
`len(values)` when the write `keys[len(values)] = key` happens, so the
write is out of range and the function panics on every input. -/
theorem medianKey_always_panics (values : List Pair) (key : Int) :
    medianKeyForChildrenAndKey values key = none := by
  simp [medianKeyForChildrenAndKey]

/-- Every call to `Insert`, on every tree state, returns by panic:
either the descent or `isFull` assert fires, or — on the normal path,
full leaf or not — control falls through to
`medianKeyForChildrenAndKey`, which always panics. -/
theorem insert_always_none (b : Btree) (key value : Int) :
    Btree.Insert b key value = none := by
  unfold Btree.Insert
  rcases h : b.root.findLeafNodeByKey key with _ | ⟨values, parent⟩
  · rfl
  · simp only
    rcases leafIsFull b.order values with _ | full
    · rfl
    · simp only [medianKey_always_panics]

/-! ### Claim theorems -/

/-- C1 (code_bug): round-trip correctness fails at the very first
insertion.  On a fresh tree of order 2, `Insert(10, 42)` — the exact
scenario of `TestInsertOne` — panics with an index-out-of-range in
`medianKeyForChildrenAndKey` instead of returning, so no sequence of
insertions can complete and `Find` can never be consulted afterwards. -/
theorem c1_first_insert_panics :
    Btree.Insert (Btree.New 2) 10 42 = none :=
  insert_always_none _ _ _

/-- C2 (code_bug): invariant preservation fails because no `Insert`
call returns normally.  On a fresh tree of order 2, `Insert(20, 120)`
(the first operation of `TestInsertTwoOutOfOrder`) panics, so
`IntegrityCheck` cannot return nil after every single insert — the
insert never completes. -/
theorem c2_insert_never_completes :
    Btree.Insert (Btree.New 2) 20 120 = none :=
  insert_always_none _ _ _

/-- C3 (confirmed): `medianKeyForChildrenAndKey` writes to index
`len(values)` of a slice whose length is `len(values)` (it was created
by `make` with length 0 and only appended to `len(values)` elements),
which panics on every input; and since `Insert` has no early return
after the non-full branch, control always reaches that call, so
`Insert` never returns normally — on trees built by `New(order)` with
`order ≥ 2` and even on every other tree state. -/
theorem c3_insert_never_returns_normally :
    (∀ (values : List Pair) (key : Int), medianKeyForChildrenAndKey values key = none)
    ∧ (∀ (b : Btree) (key value : Int), Btree.Insert b key value = none) :=
  ⟨medianKey_always_panics, insert_always_none⟩

/-- C4 (code_bug): the descent loop of `innerNode.findLeafNodeByKey`
has no break, so it keeps the LAST index whose separator exceeds the
key, not the leftmost.  On an inner node with separators `[10, 20]`
and children holding `{5}`, `{15}`, `{25}`, seeking key 5 descends
into child index 1 and returns the leaf holding 15 — the claim (and
the function's own range-table comment) require child 0, the leaf
holding 5. -/
theorem c4_descent_picks_last_exceeding_separator :
    Node.findLeafNodeByKey
      (.inner 0 [.leaf [(5, 5)] (some 0), .leaf [(15, 15)] (some 0), .leaf [(25, 25)] (some 0)]
        [10, 20] none) 5 = some ([(15, 15)], some 0)
    ∧ foundNodeIndex [10, 20] 5 = 1 := by
  constructor
  · simp [Node.findLeafNodeByKey, foundNodeIndex, foundNodeIndexLoop]
  · decide

/-- C5 (code_bug): even when the target leaf fits, `Insert` does not
return.  On a fresh tree of order 2 the empty root leaf is not full
(`isFull` yields false) and after the insertion it holds 1 ≤ 2 pairs,
yet `Insert(7, 70)` still falls through — there is no early return —
into the median computation and panics instead of returning with the
tree otherwise unchanged. -/
theorem c5_insert_falls_through_when_leaf_fits :
    leafIsFull 2 [] = some false
    ∧ ((mapAssign [] 7 70).length : Int) ≤ 2
    ∧ Btree.Insert (Btree.New 2) 7 70 = none := by
  refine ⟨by simp [leafIsFull], by simp [mapAssign], insert_always_none _ _ _⟩

/-- C6 (confirmed): `splitAroundMedian` returns two fresh leaves (nil
parents) where the left one holds exactly the original pairs with key
strictly below the median, the right one exactly those with key at or
above the median, and together they hold every pair of the original
leaf. -/
theorem c6_split_partitions_pairs (values : List Pair) (median : Int) :
    (∀ p : Pair, p ∈ (splitAroundMedian values median).1.values ↔ p ∈ values ∧ p.1 < median)
    ∧ (∀ p : Pair, p ∈ (splitAroundMedian values median).2.values ↔ p ∈ values ∧ median ≤ p.1)
    ∧ (∀ p : Pair, p ∈ values ↔
        p ∈ (splitAroundMedian values median).1.values
          ∨ p ∈ (splitAroundMedian values median).2.values)
    ∧ (splitAroundMedian values median).1.parent = none
    ∧ (splitAroundMedian values median).2.parent = none := by
  simp only [splitAroundMedian, List.partition_eq_filter_filter, List.mem_filter]
  refine ⟨fun p => ?_, fun p => ?_, fun p => ?_, trivial, trivial⟩
  · simp
  · simp [not_lt]
  · by_cases hp : p.1 < median <;> simp [hp]

/-- C7 (confirmed): for two split leaves whose parents are nil,
`newInnerNodeForSplitLeafs` builds a brand-new inner node with exactly
`[left, right]` as children and `[median]` as its single key, sets
both leaves' parent pointers to it (the function refuses — assert
panic — a leaf whose parent is already set, so each pointer goes from
nil exactly once), and `replaceRoot` makes that node the tree's root
while leaving the order unchanged. -/
theorem c7_root_split_builds_new_root (b : Btree) (l r : LeafNode) (median : Int)
    (freshId : Nat) (hl : l.parent = none) (hr : r.parent = none) :
    newInnerNodeForSplitLeafs freshId l r median
      = some (.inner freshId
          [.leaf l.values (some freshId), .leaf r.values (some freshId)] [median] none)
    ∧ (b.replaceRoot (.inner freshId
          [.leaf l.values (some freshId), .leaf r.values (some freshId)] [median] none)).root
        = .inner freshId
          [.leaf l.values (some freshId), .leaf r.values (some freshId)] [median] none
    ∧ (b.replaceRoot (.inner freshId
          [.leaf l.values (some freshId), .leaf r.values (some freshId)] [median] none)).order
        = b.order
    ∧ (∀ l2 : LeafNode, l2.parent ≠ none →
        newInnerNodeForSplitLeafs freshId l2 r median = none) := by
  refine ⟨by simp [newInnerNodeForSplitLeafs, hl, hr], rfl, rfl, fun l2 h2 => ?_⟩
  simp [newInnerNodeForSplitLeafs, h2]

/-- Witness for C7 at a concrete root split: the empty left leaf and a
singleton right leaf, median 10, fresh id 1, on a fresh tree. -/
theorem c7_root_split_builds_new_root_witness :
    (⟨[], none⟩ : LeafNode).parent = none
    ∧ newInnerNodeForSplitLeafs 1 ⟨[], none⟩ ⟨[(20, 120)], none⟩ 10
        = some (.inner 1 [.leaf [] (some 1), .leaf [(20, 120)] (some 1)] [10] none) :=
  ⟨rfl, (c7_root_split_builds_new_root (Btree.New 2) ⟨[], none⟩ ⟨[(20, 120)], none⟩
      10 1 rfl rfl).1⟩

/-- C8 (code_bug): the leaf-level map assignment is indeed
last-write-wins — assigning key 10 twice leaves exactly one entry with
the latest value — but the claimed two-insert sequence can never be
performed, because already the first `Insert(10, 1)` on a fresh tree
of order 2 panics inside `medianKeyForChildrenAndKey`, so `Find` never
observes the overwrite. -/
theorem c8_overwrite_sequence_cannot_complete :
    mapAssign (mapAssign [] 10 1) 10 2 = [(10, 2)]
    ∧ Btree.Insert (Btree.New 2) 10 1 = none :=
  ⟨by simp [mapAssign], insert_always_none _ _ _⟩

/-- C9 counterexample: a tree whose inner root has the equal adjacent
separator keys `[10, 10]` and three empty leaf children (parent
pointers consistent) is NOT reported as a violation:
`integrityCheckKeyAndChildrenLen` passes it (`slices.IsSorted` is
non-strict), and the chained `checkKeysPerNode` then panics in
`slices.Min` on the empty key collection of the first child, so
`IntegrityCheck` panics instead of returning a non-nil error. -/
theorem c9_integrity_check_panics_on_equal_separators :
    Btree.IntegrityCheck
      ⟨2, .inner 0 [.leaf [] (some 0), .leaf [] (some 0), .leaf [] (some 0)] [10, 10] none⟩
      = none
    ∧ ¬ ∃ e, Btree.IntegrityCheck
      ⟨2, .inner 0 [.leaf [] (some 0), .leaf [] (some 0), .leaf [] (some 0)] [10, 10] none⟩
      = some (some e) := by
  have h : Btree.IntegrityCheck
      ⟨2, .inner 0 [.leaf [] (some 0), .leaf [] (some 0), .leaf [] (some 0)] [10, 10] none⟩
      = none := by
    simp [Btree.IntegrityCheck, Node.runRecursiveUntilError, runRecursiveUntilErrorList,
      chainedCheck, integrityCheckLeafSize, integrityCheckKeyAndChildrenLen, slicesIsSorted,
      integrityCheckAllButRootHaveParent, Node.getParent, integrityCheckParentPointsCorrectly,
      checkChildrenParents, checkKeysPerNode, checkKeysLoop, Node.keysUnder, slicesMin,
      slicesMax]
  exact ⟨h, by simp [h]⟩

/-- C9 amended (corrected): `integrityCheckKeyAndChildrenLen` returns
nil exactly for inner nodes with `len(children) = len(keys)+1` and
keys sorted NON-decreasingly (`slices.IsSorted`), and otherwise
returns a non-nil error (it never panics); in particular the
non-strict sort accepts two equal adjacent separator keys. -/
theorem c9_key_children_check_characterization (i : Nat) (children : List Node)
    (keys : List Int) (p : Option Nat) (level : Nat) :
    (integrityCheckKeyAndChildrenLen level (.inner i children keys p) = some none
      ↔ children.length = keys.length + 1 ∧ slicesIsSorted keys = true)
    ∧ (integrityCheckKeyAndChildrenLen level (.inner i children keys p) = some none
        ∨ ∃ e, integrityCheckKeyAndChildrenLen level (.inner i children keys p)
            = some (some e))
    ∧ slicesIsSorted [10, 10] = true := by
  refine ⟨?_, ?_, by decide⟩
  · unfold integrityCheckKeyAndChildrenLen
    by_cases h1 : children.length = keys.length + 1 <;>
      by_cases h2 : slicesIsSorted keys <;> simp [h1, h2]
  · unfold integrityCheckKeyAndChildrenLen
    by_cases h1 : children.length = keys.length + 1 <;>
      by_cases h2 : slicesIsSorted keys <;> simp [h1, h2]

/-- C10 (confirmed): on a freshly constructed tree of any order, the
root is an empty leaf, `findLeafNodeByKey` returns it unconditionally,
and `Find` returns the zero value with `false` for every key, without
panicking. -/
theorem c10_find_on_fresh_tree (order key : Int) :
    Btree.Find (Btree.New order) key = some (0, false) := by
  simp [Btree.Find, Btree.New, Node.findLeafNodeByKey, mapLookup]

end BtreeGo
